import Mathlib

/-!
Shallow embedding of the diff-digest streaming analysis pipeline.

JavaScript strings are modelled as `List Char` (the inputs of interest are
ASCII, where UTF-16 code units and code points coincide).  Each definition
translates one function of the TypeScript source:

* `src/app/api/analyze-diff/route.ts` — `POST`, `truncateDiffIfNeeded`,
  `createLLMPrompt`, `isLikelyJsonComplete`, `extractJsonObject`;
* `src/lib/utils.ts` — `shouldIncludePR`, `filterRelevantPRs`;
* `src/lib/api-utils.ts` — `truncateForTokenLimit`;
* `src/lib/stream-handler.ts` — `StreamManager.safeEnqueue`.

External collaborators (the OpenAI streaming backend, the built-in
`JSON.parse`, the `ReadableStream` controller) are not code of this
repository; they are modelled as parameters: the backend as the list of
delta contents it yields, `JSON.parse` as an abstract
`parseJson : List Char → Option ParsedJson` oracle (consulted only where
the route consults `JSON.parse`), and the controller as an always-succeeding
sink (its failure mode is modelled separately for `StreamManager`).
-/

/-- `s.data` as a lightweight bridge from Lean string literals to the
`List Char` model of JavaScript strings. -/
def jstr (s : String) : List Char := s.data

/-- JavaScript `hay.includes(needle)` on strings. -/
def containsSub (needle : List Char) : List Char → Bool
  | [] => needle.isEmpty
  | c :: t => needle.isPrefixOf (c :: t) || containsSub needle t

/-- JavaScript `String.prototype.trim` (whitespace stripped at both ends). -/
def jsTrim (cs : List Char) : List Char :=
  ((cs.dropWhile Char.isWhitespace).reverse.dropWhile Char.isWhitespace).reverse

/-- JavaScript `a || b` for two strings: `a` when non-empty, else `b`. -/
def jsOrStr (a b : List Char) : List Char := if a.isEmpty then b else a

/-- JavaScript `v || dflt` where `v` may be `undefined` (destructured request
field): `undefined` and the empty string are falsy. -/
def jsOrOpt (v : Option (List Char)) (dflt : List Char) : List Char :=
  match v with
  | some s => jsOrStr s dflt
  | none => dflt

/-! ## Regular expressions

The relevance filter of `src/lib/utils.ts` classifies titles and diff lines
with JavaScript regexes.  They are embedded with a Brzozowski-derivative
matcher over an explicit syntax: `cls` is a single-character class, `dot`
is the JavaScript `.` (any character except a newline; none of the source
regexes uses the `s` flag), and the three test modes reproduce
`RegExp.prototype.test`: `rAtStart` for `/^…/`, `rAtEnd` for `/…$/` (without
the `m` flag `$` matches only at the very end) and `rAnywhere` for an
unanchored pattern. -/

inductive Regex where
  | emp : Regex
  | eps : Regex
  | cls : (Char → Bool) → Regex
  | cat : Regex → Regex → Regex
  | alt : Regex → Regex → Regex
  | star : Regex → Regex

/-- Whether the regex accepts the empty string. -/
def Regex.nullable : Regex → Bool
  | .emp => false
  | .eps => true
  | .cls _ => false
  | .cat r s => r.nullable && s.nullable
  | .alt r s => r.nullable || s.nullable
  | .star _ => true

/-- Brzozowski derivative with respect to one character. -/
def Regex.deriv : Regex → Char → Regex
  | .emp, _ => .emp
  | .eps, _ => .emp
  | .cls p, c => if p c then .eps else .emp
  | .cat r s, c =>
    if r.nullable then .alt (.cat (r.deriv c) s) (s.deriv c) else .cat (r.deriv c) s
  | .alt r s, c => .alt (r.deriv c) (s.deriv c)
  | .star r, c => .cat (r.deriv c) (.star r)

/-- Whether the regex matches the whole list. -/
def rFull (r : Regex) (cs : List Char) : Bool := (cs.foldl Regex.deriv r).nullable

/-- Whether some prefix of `cs` matches `r`: the test of a `/^…/` regex. -/
def rAtStart (r : Regex) : List Char → Bool
  | [] => r.nullable
  | c :: cs => r.nullable || rAtStart (r.deriv c) cs

/-- Whether some substring of `cs` matches `r`: the test of an unanchored
regex. -/
def rAnywhere (r : Regex) : List Char → Bool
  | [] => r.nullable
  | c :: cs => rAtStart r (c :: cs) || rAnywhere r cs

/-- Whether some suffix of `cs` matches `r`: the test of a `/…$/` regex. -/
def rAtEnd (r : Regex) : List Char → Bool
  | [] => r.nullable
  | c :: cs => rFull r (c :: cs) || rAtEnd r cs

/-- Single-character literal. -/
def rchar (c : Char) : Regex := .cls (fun x => x = c)

/-- Literal string. -/
def rstr (s : String) : Regex := s.data.foldr (fun c r => .cat (rchar c) r) .eps

/-- JavaScript `.`: any character but a newline. -/
def rdot : Regex := .cls (fun x => x ≠ '\n')

/-- `r+`. -/
def rplus (r : Regex) : Regex := .cat r (.star r)

/-- `r?`. -/
def ropt (r : Regex) : Regex := .alt r .eps

/-- Concatenation of a list of regexes. -/
def rcat (rs : List Regex) : Regex := rs.foldr .cat .eps

/-! ## Relevance filter (`src/lib/utils.ts`)

The pattern lists below transcribe `excludePatterns`, `includePatterns`,
`relevantFiles` and `irrelevantFiles` of `filterRelevantPRs`.  All tested
text is lowercased first by the source (`title`, `diff`), so the `i` flag
of the original regexes is inert and the patterns are written lowercase. -/

structure PR where
  id : List Char
  description : List Char
  diff : List Char
  url : List Char
deriving DecidableEq

/-- `excludePatterns` with each regex's test mode applied to the title. -/
def excludePatterns : List (List Char → Bool) :=
  [ rAtStart (rcat [.alt (rcat [rstr "doc", ropt (rchar 's')]) (rstr "documentation"), rchar ':']),
    rAtStart (rstr "update readme"),
    rAtStart (rstr "fix typo"),
    rAtEnd (rstr "readme.md"),
    rAtStart (rcat [rstr "bump ", rplus rdot, rstr " from ", rplus rdot, rstr " to ", rplus rdot]),
    rAtStart (rstr "chore(deps)"),
    rAtStart (rstr "[release]"),
    rAtStart (rstr "[ci]"),
    rAtStart (rstr "ci:"),
    rAnywhere (rcat [rstr "github", ropt rdot, rstr "actions"]),
    rAnywhere (rstr ".github/"),
    rAtStart (rstr "[test]"),
    rAtStart (rstr "test:"),
    rAtStart (rcat [rstr "test", ropt (rchar 's'), rchar ':']),
    rAnywhere (rstr "unflake"),
    rAtStart (rstr "refactor(internal)"),
    rAnywhere (rcat [rstr "remove", rplus rdot, rstr "wrapper"]),
    rAnywhere (rstr "replace uses of"),
    rAtStart (rstr "style:"),
    rAtStart (rstr "lint:"),
    rAnywhere (rstr "prettier"),
    rAnywhere (rstr "eslint") ]

/-- `includePatterns` with each regex's test mode applied to the title. -/
def includePatterns : List (List Char → Bool) :=
  [ rAtStart (rstr "perf"),
    rAnywhere (rstr "performance"),
    rAnywhere (rstr "optimize"),
    rAnywhere (rstr "faster"),
    rAnywhere (rstr "speed"),
    rAtStart (rstr "feat"),
    rAnywhere (rcat [rstr "add", ropt (rstr "ed"), rplus rdot, rstr "support"]),
    rAnywhere (rcat [rstr "new", rplus rdot, rstr "method"]),
    rAnywhere (rstr "implement"),
    rAtStart (rstr "fix"),
    rAnywhere (rstr "bug"),
    rAnywhere (rstr "issue"),
    rAnywhere (rstr "error"),
    rAnywhere (rstr "breaking"),
    rAnywhere (rstr "deprecate"),
    rAnywhere (rcat [rstr "remove", ropt (rchar 'd'), rplus rdot, rstr "api"]),
    rAnywhere (rstr "typescript"),
    rAnywhere (rstr "dx:"),
    rAnywhere (rcat [rstr "developer", rdot, rstr "experience"]),
    rAnywhere (rcat [rstr "improve", rplus rdot, rstr "error"]),
    rAnywhere (rstr "api"),
    rAnywhere (rstr "endpoint"),
    rAnywhere (rstr "client"),
    rAnywhere (rstr "sdk"),
    rAnywhere (rstr "stream"),
    rAnywhere (rstr "websocket"),
    rAnywhere (rstr "sse"),
    rAnywhere (rcat [rstr "real", ropt rdot, rstr "time"]) ]

/-- `relevantFiles` (tested against `+++`/`---` lines of the diff). -/
def relevantFiles : List (List Char → Bool) :=
  [ rAtEnd (rstr ".ts"),
    rAtEnd (rstr ".js"),
    rAnywhere (rstr "src/"),
    rAnywhere (rstr "lib/"),
    rAnywhere (rstr "api/"),
    rAnywhere (rstr "client"),
    rAnywhere (rstr "index.") ]

/-- `irrelevantFiles` (tested against `+++`/`---` lines of the diff). -/
def irrelevantFiles : List (List Char → Bool) :=
  [ rAtEnd (rstr ".md"),
    rAtEnd (rstr ".yml"),
    rAtEnd (rstr ".json"),
    rAnywhere (rstr "test/"),
    rAnywhere (rstr "__tests__/"),
    rAnywhere (rstr ".spec."),
    rAnywhere (rstr ".test.") ]

/-- The match count of the source's `additions` regex (a plus sign followed
by a non-plus character, flag `g`) and, with `lead` a dash, of its
`deletions` regex.  Matches are two characters long and never overlap (a
match at `i` forces no match at `i + 1`), so the global count is the count
of such positions. -/
def countPairMatches (lead : Char) : List Char → Nat
  | c₁ :: c₂ :: rest =>
    (if c₁ = lead && c₂ ≠ lead then 1 else 0) + countPairMatches lead (c₂ :: rest)
  | _ => 0

/-- `filterRelevantPRs` of `src/lib/utils.ts`: exclusion regexes, then
inclusion regexes, then the file-impact heuristic, then the size
heuristic, with `return totalChanges >= 10` as the final decision. -/
def filterRelevantPRs (prs : List PR) : List PR :=
  prs.filter fun pr =>
    let title := pr.description.map Char.toLower
    let diff := pr.diff.map Char.toLower
    if excludePatterns.any (fun t => t title) then false
    else if includePatterns.any (fun t => t title) then true
    else
      let diffLines := diff.splitOn '\n'
      let fileLines := diffLines.filter fun line =>
        (jstr "+++").isPrefixOf line || (jstr "---").isPrefixOf line
      let relevantFileCount :=
        (fileLines.filter fun line => relevantFiles.any (fun t => t line)).length
      let irrelevantFileCount :=
        (fileLines.filter fun line => irrelevantFiles.any (fun t => t line)).length
      if relevantFileCount < irrelevantFileCount then false
      else
        let additions := countPairMatches '+' diff
        let deletions := countPairMatches '-' diff
        let totalChanges := additions + deletions
        if totalChanges < 10 && !containsSub (jstr "fix") title then false
        else decide (10 ≤ totalChanges)

/-- `shouldIncludePR` of `src/lib/utils.ts`: the fast-path filter used by the
route at submission time. -/
def shouldIncludePR (pr : PR) : Bool :=
  let t := pr.description.map Char.toLower
  if containsSub (jstr "[test]") t then false
  else if containsSub (jstr "[ci]") t then false
  else if containsSub (jstr "readme") t then false
  else if (jstr "bump ").isPrefixOf t then false
  else if containsSub (jstr "fix") t then true
  else if containsSub (jstr "feat") t then true
  else if containsSub (jstr "perf") t then true
  else if containsSub (jstr "breaking") t then true
  else if containsSub (jstr "api") t then true
  else true

/-! ## Truncation and prompt building (`route.ts`, `api-utils.ts`) -/

/-- The marker `truncateDiffIfNeeded` inserts between the kept head and tail. -/
def truncMarkerRoute : List Char := jstr "\n\n... [diff truncated due to size] ...\n\n"

/-- The marker `truncateForTokenLimit` inserts between the kept head and tail. -/
def truncMarkerUtils : List Char := jstr "\n\n... [content truncated due to size] ...\n\n"

/-- `truncateDiffIfNeeded` of `route.ts`.  The source computes the substring
bounds as the floating-point products `maxLength * 0.7` and
`maxLength * 0.3` (implicitly truncated by `substring`); at the default
`maxLength = 12000` — the only value the route uses — both products are
exact (8400 and 3600), equal to the rational bounds used here. -/
def truncateDiffIfNeeded (diff : List Char) (maxLength : Nat := 12000) : List Char :=
  if diff.length ≤ maxLength then diff
  else
    diff.take (7 * maxLength / 10) ++ truncMarkerRoute ++
      diff.drop (diff.length - 3 * maxLength / 10)

/-- `truncateForTokenLimit` of `api-utils.ts`.  The source floors
`maxLength * 0.7` and `maxLength * 0.3` explicitly; at the default
`maxLength = 12000` the floors are 8400 and 3600, equal to the rational
bounds used here. -/
def truncateForTokenLimit (text : List Char) (maxLength : Nat := 12000) : List Char :=
  if text.length ≤ maxLength then text
  else
    text.take (7 * maxLength / 10) ++ truncMarkerUtils ++
      text.drop (text.length - 3 * maxLength / 10)

/-- The text of the prompt template of `createLLMPrompt` before the
`description` interpolation. -/
def promptHead : List Char := jstr "\nYou are a specialized assistant that analyzes code diffs from Pull Requests and generates extremely concise release notes.\n\n# PR TITLE:\n"

/-- The template text between the `description` and `diff` interpolations. -/
def promptMid : List Char := jstr "\n\n# DIFF CONTENT:\n```\n"

/-- The template text after the `diff` interpolation. -/
def promptTail : List Char := jstr "\n```\n\n# YOUR TASK:\nGenerate two types of release notes for this PR, following these specific guidelines:\n\n1. Developer Notes:\n   - Technical, extremely concise (max 100 characters)\n   - Start with a verb\n   - Focus only on the core technical change\n   - Use markdown code tags for technical terms\n   - Single sentence only\n\n2. Marketing Notes:\n   - User-focused benefit (max 100 characters)\n   - Simple, non-technical language\n   - Bold the main benefit\n   - Single sentence only\n\n# OUTPUT FORMAT:\nRespond ONLY with a JSON object having the following structure:\n\x7b\n  \"developer\": \"Brief technical note (max 100 chars)\",\n  \"marketing\": \"Brief user benefit (max 100 chars)\"\n\x7d\n\n# EXAMPLES:\nFor a PR that improves error handling:\n\x7b\n  \"developer\": \"Added `retryMiddleware` to API calls with exponential backoff for transient failures.\",\n  \"marketing\": \"**Enhanced reliability** prevents disruptions during network issues.\"\n\x7d\n\nFor a performance optimization:\n\x7b\n  \"developer\": \"Optimized database queries using `preparedStatements`, reducing load times by 40%.\",\n  \"marketing\": \"**Pages load twice as fast** for a smoother browsing experience.\"\n\x7d\n"

/-- `createLLMPrompt` of `route.ts`: the fixed template with the
`description` and `diff` interpolations. -/
def createLLMPrompt (diff description : List Char) : List Char :=
  promptHead ++ description ++ promptMid ++ diff ++ promptTail

/-! ## Incremental JSON extraction (`route.ts`) -/

/-- `isLikelyJsonComplete` of `route.ts`: at least one opening brace, and as
many opening as closing braces. -/
def isLikelyJsonComplete (text : List Char) : Bool :=
  let openBraces := text.countP (fun c => c = '\x7b')
  let closeBraces := text.countP (fun c => c = '\x7d')
  decide (0 < openBraces) && decide (openBraces = closeBraces)

/-- Neither brace: the character class complementary to braces in the
source's `jsonPattern` regex. -/
def nonbrace (c : Char) : Bool := c ≠ '\x7b' && c ≠ '\x7d'

/-- The group-star phase of the source's candidate regex (an opening brace,
a run of non-braces, a closing brace, repeated): consumes complete groups
and stops before the first position where no complete group follows.
`fuel` only bounds the recursion depth; every iteration consumes at least
two characters, so any `fuel ≥` half the input length is exact. -/
def consumeGroupsRem (fuel : Nat) (cs : List Char) : List Char :=
  match fuel with
  | 0 => cs
  | fuel' + 1 =>
    match cs with
    | '\x7b' :: rest =>
      match rest.dropWhile nonbrace with
      | '\x7d' :: rest₂ => consumeGroupsRem fuel' rest₂
      | _ => '\x7b' :: rest
    | _ => cs

/-- The leftmost-greedy match of the source's `jsonPattern` regex (an
opening brace, a non-brace run, complete one-level groups, a non-brace
run, a closing brace) at the head of `cs`: `some rem` leaves the rest of
the input after the match.  Greedy backtracking of the JavaScript engine
degenerates to this deterministic scan for this pattern: each quantifier's
shorter alternatives all fail on the same next character. -/
def matchJsonRem (cs : List Char) : Option (List Char) :=
  match cs with
  | '\x7b' :: rest =>
    match (consumeGroupsRem rest.length (rest.dropWhile nonbrace)).dropWhile nonbrace with
    | '\x7d' :: rem => some rem
    | _ => none
  | _ => none

/-- Global scan of `text.match(jsonPattern)`: leftmost matches, resuming
after each match's end.  `fuel` only bounds the recursion depth; every
step consumes at least one character, so `fuel = cs.length` is exact. -/
def jsonScan (fuel : Nat) (cs : List Char) : List (List Char) :=
  match fuel with
  | 0 => []
  | fuel' + 1 =>
    match cs with
    | [] => []
    | c :: rest =>
      match matchJsonRem (c :: rest) with
      | some rem =>
        (c :: rest).take ((c :: rest).length - rem.length) :: jsonScan fuel' rem
      | none => jsonScan fuel' rest

/-- All candidate substrings `text.match(jsonPattern)` yields (the empty
list plays the role of the `null` result). -/
def jsonPatternMatches (cs : List Char) : List (List Char) := jsonScan cs.length cs

/-- The JavaScript values the route inspects on a parsed object: a string, an
array of strings, `undefined` (an absent key), or any other value of which
only truthiness matters to the route. -/
inductive JsValue where
  | undef : JsValue
  | str : List Char → JsValue
  | arr : List (List Char) → JsValue
  | other : Bool → JsValue
deriving DecidableEq

/-- JavaScript truthiness of a `JsValue` (an array is truthy even when
empty). -/
def JsValue.truthy : JsValue → Bool
  | .undef => false
  | .str s => !s.isEmpty
  | .arr _ => true
  | .other b => b

/-- JavaScript `a || b` on `JsValue`s. -/
def jsOr (a b : JsValue) : JsValue := if a.truthy then a else b

/-- The fields of a `JSON.parse` result that the route reads. -/
structure ParsedJson where
  developer : JsValue
  marketing : JsValue
  developerNotes : JsValue
  devNotes : JsValue
  marketingNotes : JsValue
  userNotes : JsValue
deriving DecidableEq

/-- `extractJsonObject` of `route.ts`: the first candidate substring that
`JSON.parse` (the abstract `parseJson` oracle) accepts; `none` both when
the regex finds no candidate and when no candidate parses. -/
def extractJsonObject (parseJson : List Char → Option ParsedJson)
    (text : List Char) : Option (List Char) :=
  (jsonPatternMatches text).find? (fun m => (parseJson m).isSome)

/-- The permissive field resolution of the route's end-of-stream retry:
a string is kept, an array of strings is joined with spaces, anything else
falls back to the first truthy alternate key, then to the empty string. -/
def resolveField (v alt₁ alt₂ : JsValue) : JsValue :=
  match v with
  | .str s => .str s
  | .arr xs => .str (List.intercalate [' '] xs)
  | _ => jsOr alt₁ (jsOr alt₂ (.str []))

/-! ## The streaming session (`POST` of `route.ts`)

The `ReadableStream` body of `POST` is modelled as a deterministic function
of the parsed request, the list of delta contents the backend yields
(`chunk.choices[0]?.delta?.content || ''` of each chunk), and an optional
cancellation point.  Client disconnection invokes the stream's `cancel`
callback, which sets `isClosed` and aborts the backend call; the loop
observes both at the top of each iteration, so cancellation is modelled at
chunk granularity: `cancelAt = some k` means the signal fires before the
`k`-th chunk is processed.  After the loop breaks, the finalization and
`complete` code still runs, but `safeEnqueue` delivers nothing once
`isClosed` is set; the controller itself is modelled as never throwing
(its throwing path is the `StreamManager` model below). -/

/-- The events `POST` can serialize onto the SSE channel. -/
inductive SessionEvent where
  | start : Option (List Char) → SessionEvent
  | message : List Char → SessionEvent
  | progress : List Char → SessionEvent
  | notes : JsValue → JsValue → SessionEvent
  | error : List Char → SessionEvent
  | complete : SessionEvent
deriving DecidableEq

/-- Whether an event is a `notes` event. -/
def isNotesEvent : SessionEvent → Bool
  | .notes _ _ => true
  | _ => false

/-- The mutable state of the streaming body: the batching queue, the
accumulation buffer, the notes flag, the closed flag, the events actually
delivered, and (instrumentation for the specification) the buffers on
which mid-stream extraction was attempted. -/
structure LoopState where
  responseQueue : List (List Char)
  currentJson : List Char
  notesFound : Bool
  isClosed : Bool
  events : List SessionEvent
  attempts : List (List Char)
deriving DecidableEq

/-- `safeEnqueue` of the route: deliver the event unless the stream is
closed (the controller is modelled as not throwing). -/
def enqueue (st : LoopState) (e : SessionEvent) : LoopState :=
  if st.isClosed then st else { st with events := st.events ++ [e] }

/-- The parsed request body of `POST`: absent fields are `none`. -/
structure AnalyzeRequest where
  diffContent : Option (List Char)
  diffId : Option (List Char)
  description : Option (List Char)

/-- The state of the stream body after the `start` event is sent. -/
def startedState (req : AnalyzeRequest) : LoopState :=
  enqueue
    { responseQueue := [], currentJson := [], notesFound := false,
      isClosed := false, events := [], attempts := [] }
    (.start req.diffId)

/-- The `prData` record `POST` builds for the relevance check. -/
def prOf (req : AnalyzeRequest) : PR :=
  { id := jsOrOpt req.diffId (jstr "unknown"),
    description := jsOrOpt req.description [],
    diff := truncateDiffIfNeeded (req.diffContent.getD []),
    url := [] }

/-- The loop body's first two statements on non-empty content:
`responseQueue.push(content)` and `currentJson += content`. -/
def pushContent (st : LoopState) (content : List Char) : LoopState :=
  { st with responseQueue := st.responseQueue ++ [content],
            currentJson := st.currentJson ++ content }

/-- The loop body's batching step: at five queued chunks, emit their
concatenation as one `progress` event and clear the queue. -/
def flushProgress (st : LoopState) : LoopState :=
  if 5 ≤ st.responseQueue.length then
    { enqueue st (.progress st.responseQueue.flatten) with responseQueue := [] }
  else st

/-- The loop body's extraction step: unless notes were already found and
when the brace-balance heuristic passes, attempt extraction on the buffer
(recorded in `attempts`) and emit a `notes` event on a shape-conforming
parse (`developer` and `marketing` both strings). -/
def tryExtractNotes (parseJson : List Char → Option ParsedJson)
    (st : LoopState) : LoopState :=
  if !st.notesFound && isLikelyJsonComplete st.currentJson then
    let st' := { st with attempts := st.attempts ++ [st.currentJson] }
    match extractJsonObject parseJson st'.currentJson with
    | some m =>
      match parseJson m with
      | some pj =>
        match pj.developer, pj.marketing with
        | .str d, .str mk =>
          { enqueue st' (.notes (.str d) (.str mk)) with notesFound := true }
        | _, _ => st'
      | none => st'
    | none => st'
  else st

/-- One iteration of the `for await` loop of `POST` on a chunk's content:
skip empty content, else push, batch-flush, and attempt extraction, in the
source's statement order. -/
def processChunk (parseJson : List Char → Option ParsedJson)
    (st : LoopState) (content : List Char) : LoopState :=
  if content.isEmpty then st
  else tryExtractNotes parseJson (flushProgress (pushContent st content))

/-- Messages of the route's fixed strings. -/
def msgNotRelevant : List Char := jstr "PR is not relevant, skipping analysis."

/-- The placeholder for an empty developer note. -/
def msgNoDeveloper : List Char := jstr "No developer notes generated."

/-- The placeholder for an empty marketing note. -/
def msgNoMarketing : List Char := jstr "No marketing notes generated."

/-- The end-of-stream retry of `POST` (run when no notes were found and the
buffer is non-empty): strict extraction with permissive field resolution,
and otherwise the sentence-splitting fallback.  The second component
records the buffer on which the retry attempted extraction, `none` when
the retry did not run. -/
def finalize (parseJson : List Char → Option ParsedJson)
    (st : LoopState) : LoopState × Option (List Char) :=
  if !st.notesFound && !st.currentJson.isEmpty then
    match extractJsonObject parseJson st.currentJson with
    | some m =>
      (match parseJson m with
       | some pj =>
         let developer := resolveField pj.developer pj.developerNotes pj.devNotes
         let marketing := resolveField pj.marketing pj.marketingNotes pj.userNotes
         if developer.truthy || marketing.truthy then
           ({ enqueue st
                (.notes (jsOr developer (.str msgNoDeveloper))
                  (jsOr marketing (.str msgNoMarketing))) with notesFound := true },
            some st.currentJson)
         else (st, some st.currentJson)
       | none => (st, some st.currentJson))
    | none =>
      let sentences :=
        (st.currentJson.splitOnP (fun c => c = '.' || c = '!' || c = '?')).filter
          (fun s => 10 < (jsTrim s).length)
      if 2 ≤ sentences.length then
        ({ enqueue st
             (.notes (.str (jsTrim (sentences.getD 0 []) ++ ['.']))
               (.str (jsTrim (sentences.getD 1 []) ++ ['.']))) with notesFound := true },
         some st.currentJson)
      else (st, some st.currentJson)
  else (st, none)

/-- The observable outcome of one streaming session: the events delivered in
order, whether the backend was invoked, the buffers on which mid-stream
extraction ran, the buffer of the end-of-stream retry (if it ran), and the
final accumulation buffer (the deltas actually processed). -/
structure SessionTrace where
  events : List SessionEvent
  backendInvoked : Bool
  streamAttempts : List (List Char)
  finalAttempt : Option (List Char)
  buffer : List Char
deriving DecidableEq

/-- The stream body of `POST`: `start` event, fast-path relevance gate
(rejection emits `message` and closes without a backend call), then the
delta loop, the end-of-stream retry, and the `complete` event.  With
`cancelAt = some k` only the first `k` chunks are processed and every
later emission is suppressed by the closed flag. -/
def streamBody (parseJson : List Char → Option ParsedJson) (req : AnalyzeRequest)
    (chunks : List (List Char)) (cancelAt : Option Nat) : SessionTrace :=
  let st₁ := startedState req
  if !shouldIncludePR (prOf req) then
    let st₂ := enqueue st₁ (.message msgNotRelevant)
    { events := st₂.events, backendInvoked := false,
      streamAttempts := st₂.attempts, finalAttempt := none,
      buffer := st₂.currentJson }
  else
    let processed := match cancelAt with | some k => chunks.take k | none => chunks
    let st₂ := processed.foldl (processChunk parseJson) st₁
    let st₃ := if cancelAt.isSome then { st₂ with isClosed := true } else st₂
    let st₄ := (finalize parseJson st₃).1
    let st₅ := enqueue st₄ .complete
    { events := st₅.events, backendInvoked := true,
      streamAttempts := st₅.attempts, finalAttempt := (finalize parseJson st₃).2,
      buffer := st₅.currentJson }

/-- The responses of `POST` the claims discriminate: the synchronous 400 for
a missing/empty `diffContent`, or the SSE stream. -/
inductive RouteResponse where
  | badRequest : Nat → List Char → RouteResponse
  | sse : SessionTrace → RouteResponse
deriving DecidableEq

/-- The body of the 400 response. -/
def msgMissingDiff : List Char := jstr "Missing diff content"

/-- `POST` of `route.ts`: reject a falsy `diffContent` with status 400
before any stream or backend interaction exists, else run the stream
body. -/
def POST (parseJson : List Char → Option ParsedJson) (req : AnalyzeRequest)
    (chunks : List (List Char)) (cancelAt : Option Nat) : RouteResponse :=
  if (req.diffContent.getD []).isEmpty then .badRequest 400 msgMissingDiff
  else .sse (streamBody parseJson req chunks cancelAt)

/-! ## `StreamManager` (`src/lib/stream-handler.ts`)

`safeEnqueue` interacts with the external controller, whose `enqueue` may
throw (the stream is already closed or errored); that behaviour is the
`controllerThrows` parameter.  In the embedding "never raises" is the
totality of the function: every path returns a result (the source's
`catch` arm is the middle branch). -/

/-- The state `StreamManager` owns. -/
structure StreamManagerState where
  isClosed : Bool
deriving DecidableEq

/-- The outcome of one `safeEnqueue` call: the new manager state, the
returned boolean, and the data the controller actually accepted (`none`
when nothing was delivered). -/
def StreamManager.safeEnqueue (st : StreamManagerState) (controllerThrows : Bool)
    (data : List Char) : StreamManagerState × Bool × Option (List Char) :=
  if st.isClosed then (st, false, none)
  else if controllerThrows then ({ st with isClosed := true }, false, none)
  else (st, true, some data)

/-- A concrete `JSON.parse` oracle for closed runs: it rejects every
candidate.  The concrete runs below only exercise code paths whose
behaviour does not depend on the oracle (their buffers contain no
parseable candidate, or only instrumentation fields are inspected). -/
def parseNone : List Char → Option ParsedJson := fun _ => none

/-- The at-most-one-notes invariant of a loop state: no `notes` event has
been delivered while `notesFound` is unset, and never more than one. -/
def NotesInv (st : LoopState) : Prop :=
  (st.notesFound = false → st.events.countP isNotesEvent = 0)
  ∧ st.events.countP isNotesEvent ≤ 1

/-! ## Helper lemmas -/

/-- `safeEnqueue` on a closed stream changes nothing. -/
theorem enqueue_of_closed (st : LoopState) (e : SessionEvent) (h : st.isClosed = true) :
    enqueue st e = st := by
  simp [enqueue, h]

/-- `safeEnqueue` never touches the accumulation buffer. -/
theorem enqueue_currentJson (st : LoopState) (e : SessionEvent) :
    (enqueue st e).currentJson = st.currentJson := by
  unfold enqueue; split <;> rfl

/-- `safeEnqueue` never touches the extraction instrumentation. -/
theorem enqueue_attempts (st : LoopState) (e : SessionEvent) :
    (enqueue st e).attempts = st.attempts := by
  unfold enqueue; split <;> rfl

/-- `safeEnqueue` never touches the notes flag. -/
theorem enqueue_notesFound (st : LoopState) (e : SessionEvent) :
    (enqueue st e).notesFound = st.notesFound := by
  unfold enqueue
  split <;> rfl

/-- On a closed state the end-of-stream retry delivers no event. -/
theorem finalize_events_of_closed (pj : List Char → Option ParsedJson) (st : LoopState)
    (h : st.isClosed = true) :
    (finalize pj st).1.events = st.events := by
  unfold finalize
  repeat' (split <;> try simp [enqueue, h])

/-- The end-of-stream retry never touches the accumulation buffer. -/
theorem finalize_currentJson (pj : List Char → Option ParsedJson) (st : LoopState) :
    (finalize pj st).1.currentJson = st.currentJson := by
  unfold finalize
  repeat' (split <;> try simp [enqueue])

/-- The end-of-stream retry never touches the mid-stream instrumentation. -/
theorem finalize_attempts (pj : List Char → Option ParsedJson) (st : LoopState) :
    (finalize pj st).1.attempts = st.attempts := by
  unfold finalize
  repeat' (split <;> try simp [enqueue])

/-- The end-of-stream retry never touches the closed flag. -/
theorem finalize_isClosed (pj : List Char → Option ParsedJson) (st : LoopState) :
    (finalize pj st).1.isClosed = st.isClosed := by
  unfold finalize
  repeat' (split <;> try simp [enqueue])

/-- Batching leaves the accumulation buffer alone. -/
theorem flushProgress_currentJson (st : LoopState) :
    (flushProgress st).currentJson = st.currentJson := by
  unfold flushProgress
  split <;> simp [enqueue_currentJson]

/-- Batching leaves the extraction instrumentation alone. -/
theorem flushProgress_attempts (st : LoopState) :
    (flushProgress st).attempts = st.attempts := by
  unfold flushProgress
  split <;> simp [enqueue_attempts]

/-- The extraction step leaves the accumulation buffer alone. -/
theorem tryExtractNotes_currentJson (pj : List Char → Option ParsedJson) (st : LoopState) :
    (tryExtractNotes pj st).currentJson = st.currentJson := by
  unfold tryExtractNotes
  repeat' (split <;> try simp [enqueue])

/-- One loop iteration appends exactly the chunk's content to the buffer. -/
theorem processChunk_currentJson (pj : List Char → Option ParsedJson)
    (st : LoopState) (c : List Char) :
    (processChunk pj st c).currentJson = st.currentJson ++ c := by
  unfold processChunk
  split
  · simp_all [List.isEmpty_iff]
  · rw [tryExtractNotes_currentJson, flushProgress_currentJson]; rfl

/-- The loop's buffer is the concatenation of the processed contents. -/
theorem foldl_currentJson (pj : List Char → Option ParsedJson) :
    ∀ (cs : List (List Char)) (st : LoopState),
      (cs.foldl (processChunk pj) st).currentJson = st.currentJson ++ cs.flatten
  | [], st => by simp
  | c :: cs, st => by
    simp only [List.foldl_cons, List.flatten_cons]
    rw [foldl_currentJson pj cs (processChunk pj st c), processChunk_currentJson]
    simp [List.append_assoc]

/-- The extraction step either records nothing or records the current
buffer, and only under a passing brace-balance guard. -/
theorem tryExtractNotes_attempts (pj : List Char → Option ParsedJson) (st : LoopState) :
    (tryExtractNotes pj st).attempts = st.attempts
    ∨ ((tryExtractNotes pj st).attempts = st.attempts ++ [st.currentJson]
        ∧ isLikelyJsonComplete st.currentJson = true) := by
  unfold tryExtractNotes
  split
  · next hguard =>
    right
    refine ⟨?_, ?_⟩
    · dsimp only
      repeat' (split <;> try simp [enqueue])
    · simp only [Bool.and_eq_true] at hguard
      exact hguard.2
  · left
    rfl

/-- Any buffer recorded by the extraction step was already recorded or
passes the brace-balance guard. -/
theorem tryExtractNotes_attempts_inv (pj : List Char → Option ParsedJson)
    (st : LoopState) (buf : List Char)
    (h : buf ∈ (tryExtractNotes pj st).attempts) :
    buf ∈ st.attempts ∨ isLikelyJsonComplete buf = true := by
  rcases tryExtractNotes_attempts pj st with h' | ⟨h', hlike⟩
  · rw [h'] at h
    exact Or.inl h
  · rw [h'] at h
    simp only [List.mem_append, List.mem_singleton] at h
    rcases h with h | rfl
    · exact Or.inl h
    · exact Or.inr hlike

/-- Any buffer recorded by one loop iteration was already recorded or
passes the brace-balance guard. -/
theorem processChunk_attempts_inv (pj : List Char → Option ParsedJson)
    (st : LoopState) (c : List Char) (buf : List Char)
    (h : buf ∈ (processChunk pj st c).attempts) :
    buf ∈ st.attempts ∨ isLikelyJsonComplete buf = true := by
  unfold processChunk at h
  split at h
  · exact Or.inl h
  · rcases tryExtractNotes_attempts_inv pj _ buf h with h' | h'
    · rw [flushProgress_attempts] at h'
      exact Or.inl h'
    · exact Or.inr h'

/-- Any buffer recorded by the whole loop was recorded before it or passes
the brace-balance guard. -/
theorem foldl_attempts_inv (pj : List Char → Option ParsedJson) :
    ∀ (cs : List (List Char)) (st : LoopState) (buf : List Char),
      buf ∈ (cs.foldl (processChunk pj) st).attempts →
      buf ∈ st.attempts ∨ isLikelyJsonComplete buf = true
  | [], _, _, h => Or.inl h
  | c :: cs, st, buf, h => by
    simp only [List.foldl_cons] at h
    rcases foldl_attempts_inv pj cs (processChunk pj st c) buf h with h' | h'
    · exact processChunk_attempts_inv pj st c buf h'
    · exact Or.inr h'

/-- Delivering a non-`notes` event does not change the notes count. -/
theorem enqueue_countP_nonnotes (st : LoopState) (e : SessionEvent)
    (he : isNotesEvent e = false) :
    (enqueue st e).events.countP isNotesEvent = st.events.countP isNotesEvent := by
  unfold enqueue
  split
  · rfl
  · simp [List.countP_append, he]

/-- Delivering any event raises the notes count by at most one. -/
theorem enqueue_countP_le (st : LoopState) (e : SessionEvent) :
    (enqueue st e).events.countP isNotesEvent ≤ st.events.countP isNotesEvent + 1 := by
  unfold enqueue
  split
  · omega
  · simp only [List.countP_append]
    have : List.countP isNotesEvent [e] ≤ 1 := by
      simp [List.countP_cons]
      split <;> omega
    omega

/-- Pushing content preserves the notes invariant. -/
theorem pushContent_notesInv (st : LoopState) (c : List Char)
    (h : NotesInv st) : NotesInv (pushContent st c) := h

/-- Batching preserves the notes invariant. -/
theorem flushProgress_notesInv (st : LoopState) (h : NotesInv st) :
    NotesInv (flushProgress st) := by
  unfold flushProgress
  split
  · dsimp only
    have hcount := enqueue_countP_nonnotes st (.progress st.responseQueue.flatten) rfl
    have hnf := enqueue_notesFound st (.progress st.responseQueue.flatten)
    constructor
    · intro hx
      show (enqueue st (.progress st.responseQueue.flatten)).events.countP isNotesEvent = 0
      rw [hcount]
      refine h.1 ?_
      rw [← hnf]
      exact hx
    · show (enqueue st (.progress st.responseQueue.flatten)).events.countP isNotesEvent ≤ 1
      rw [hcount]
      exact h.2
  · exact h

/-- Delivering one event onto a notes-free state and setting `notesFound`
restores the invariant. -/
theorem notesInv_of_enqueue_true (st : LoopState) (e : SessionEvent)
    (hz : st.events.countP isNotesEvent = 0) :
    NotesInv { enqueue st e with notesFound := true } := by
  constructor
  · intro hx
    exact absurd hx (by simp)
  · show (enqueue st e).events.countP isNotesEvent ≤ 1
    have := enqueue_countP_le st e
    omega

/-- The extraction step preserves the notes invariant. -/
theorem tryExtractNotes_notesInv (pj : List Char → Option ParsedJson) (st : LoopState)
    (h : NotesInv st) : NotesInv (tryExtractNotes pj st) := by
  unfold tryExtractNotes
  split
  · next hguard =>
    have hnf : st.notesFound = false := by
      simp only [Bool.and_eq_true, Bool.not_eq_true'] at hguard
      exact hguard.1
    have hz : st.events.countP isNotesEvent = 0 := h.1 hnf
    have hInv : NotesInv { st with attempts := st.attempts ++ [st.currentJson] } :=
      ⟨fun _ => hz, h.2⟩
    dsimp only
    split
    · split
      · split
        · exact notesInv_of_enqueue_true _ _ hz
        · exact hInv
      · exact hInv
    · exact hInv
  · exact h

/-- One loop iteration preserves the notes invariant. -/
theorem processChunk_notesInv (pj : List Char → Option ParsedJson)
    (st : LoopState) (c : List Char) (h : NotesInv st) :
    NotesInv (processChunk pj st c) := by
  unfold processChunk
  split
  · exact h
  · exact tryExtractNotes_notesInv pj _ (flushProgress_notesInv _ (pushContent_notesInv _ _ h))

/-- The whole loop preserves the notes invariant. -/
theorem foldl_notesInv (pj : List Char → Option ParsedJson) :
    ∀ (cs : List (List Char)) (st : LoopState), NotesInv st →
      NotesInv (cs.foldl (processChunk pj) st)
  | [], _, h => h
  | c :: cs, st, h => by
    simp only [List.foldl_cons]
    exact foldl_notesInv pj cs _ (processChunk_notesInv pj st c h)

/-- The end-of-stream retry preserves the notes invariant. -/
theorem finalize_notesInv (pj : List Char → Option ParsedJson) (st : LoopState)
    (h : NotesInv st) : NotesInv (finalize pj st).1 := by
  unfold finalize
  split
  · next hguard =>
    have hnf : st.notesFound = false := by
      simp only [Bool.and_eq_true, Bool.not_eq_true'] at hguard
      exact hguard.1
    have hz : st.events.countP isNotesEvent = 0 := h.1 hnf
    split
    · split
      · dsimp only
        split
        · exact notesInv_of_enqueue_true _ _ hz
        · exact h
      · exact h
    · dsimp only
      split
      · exact notesInv_of_enqueue_true _ _ hz
      · exact h
  · exact h

/-- A fresh session satisfies the notes invariant. -/
theorem startedState_notesInv (req : AnalyzeRequest) : NotesInv (startedState req) := by
  constructor <;> simp [startedState, enqueue, isNotesEvent, List.countP_cons]

/-- The length of the route's truncation marker. -/
theorem truncMarkerRoute_length : truncMarkerRoute.length = 40 := by decide

/-- The length of the API utilities' truncation marker. -/
theorem truncMarkerUtils_length : truncMarkerUtils.length = 43 := by decide

/-! ## The claims -/

/-- C1 (counterexample): the claim "the rendered diff section has length at
most the threshold L" fails at a 12001-character diff: the section has
length 12040 = L + 40 (the retained content is exactly L = 12000 but the
inserted marker adds its own 40 characters). -/
theorem truncation_section_exceeds_limit :
    (truncateDiffIfNeeded (List.replicate 12001 'a')).length = 12040
    ∧ ¬((truncateDiffIfNeeded (List.replicate 12001 'a')).length ≤ 12000) := by
  have h1 : (truncateDiffIfNeeded (List.replicate 12001 'a')).length = 12040 := by
    unfold truncateDiffIfNeeded
    rw [if_neg (by simp only [List.length_replicate]; omega)]
    simp only [List.length_append, List.length_take, List.length_drop,
      List.length_replicate, truncMarkerRoute_length]
    omega
  exact ⟨h1, by omega⟩

/-- C1 (amended): for every diff longer than the default threshold 12000,
`truncateDiffIfNeeded` returns exactly the first 8400 characters, the
40-character truncation marker inserted once by construction, and the last
3600 characters; the section's length is 12040 = 12000 + 40 (the retained
diff content is exactly the threshold), and the built prompt contains the
marker. -/
theorem truncation_structure_marker_and_length (diff description : List Char)
    (h : 12000 < diff.length) :
    truncateDiffIfNeeded diff
      = diff.take 8400 ++ truncMarkerRoute ++ diff.drop (diff.length - 3600)
    ∧ (truncateDiffIfNeeded diff).length = 12040
    ∧ List.IsInfix truncMarkerRoute (createLLMPrompt (truncateDiffIfNeeded diff) description) := by
  have h1 : truncateDiffIfNeeded diff
      = diff.take 8400 ++ truncMarkerRoute ++ diff.drop (diff.length - 3600) := by
    unfold truncateDiffIfNeeded
    rw [if_neg (by omega)]
  refine ⟨h1, ?_, ?_⟩
  · rw [h1]
    simp only [List.length_append, List.length_take, List.length_drop,
      truncMarkerRoute_length]
    omega
  · refine ⟨promptHead ++ description ++ promptMid ++ diff.take 8400,
      diff.drop (diff.length - 3600) ++ promptTail, ?_⟩
    rw [createLLMPrompt, h1]
    simp [List.append_assoc]

/-- C1 (witness): the amended truncation theorem at a concrete
12001-character diff. -/
theorem truncation_structure_marker_and_length_witness :
    12000 < (List.replicate 12001 'b').length
    ∧ (truncateDiffIfNeeded (List.replicate 12001 'b')
        = (List.replicate 12001 'b').take 8400 ++ truncMarkerRoute
            ++ (List.replicate 12001 'b').drop ((List.replicate 12001 'b').length - 3600)
      ∧ (truncateDiffIfNeeded (List.replicate 12001 'b')).length = 12040
      ∧ List.IsInfix truncMarkerRoute
          (createLLMPrompt (truncateDiffIfNeeded (List.replicate 12001 'b')) [])) :=
  ⟨by simp only [List.length_replicate]; omega,
   truncation_structure_marker_and_length (List.replicate 12001 'b') []
     (by simp only [List.length_replicate]; omega)⟩

/-- C2 (code bug): a record with title "hotfix" and an empty diff reaches
the size heuristic of `filterRelevantPRs` (no exclusion or inclusion
pattern matches its title), has fewer than 10 changed lines, and its title
contains "fix" — yet the filter excludes it, because the final
`return totalChanges >= 10` makes the bugfix exception of the preceding
guard dead code, contradicting the comment above that guard ("unless they
fix critical bugs") and the spec's default-include rule. -/
theorem filterRelevantPRs_excludes_small_bugfix :
    filterRelevantPRs [⟨jstr "1", jstr "hotfix", jstr "", jstr ""⟩] = []
    ∧ excludePatterns.any (fun t => t ((jstr "hotfix").map Char.toLower)) = false
    ∧ includePatterns.any (fun t => t ((jstr "hotfix").map Char.toLower)) = false
    ∧ containsSub (jstr "fix") ((jstr "hotfix").map Char.toLower) = true
    ∧ countPairMatches '+' (jstr "") + countPairMatches '-' (jstr "") < 10 := by
  refine ⟨by decide, by decide, by decide, by decide, by decide⟩

/-- C3 (counterexample): a session whose buffer ends as the unbalanced
string of one opening and two closing braces still attempts extraction at
end of stream — the retry records the unbalanced buffer, on which the
candidate regex finds a substring that `JSON.parse` is then applied to —
refuting "the session never attempts a JSON parse of such a buffer". -/
theorem final_retry_parses_unbalanced_buffer :
    (streamBody parseNone ⟨some (jstr "+ fix"), some (jstr "9"), some (jstr "fix bug")⟩
        [jstr "\x7b\x7d\x7d"] none).finalAttempt = some (jstr "\x7b\x7d\x7d")
    ∧ isLikelyJsonComplete (jstr "\x7b\x7d\x7d") = false
    ∧ jsonPatternMatches (jstr "\x7b\x7d\x7d") = [jstr "\x7b\x7d"] := by
  refine ⟨by decide, by decide, by decide⟩

/-- C3 (amended): during streaming, extraction is attempted only on buffers
that pass the brace-balance guard (equal brace counts, at least one pair);
the unguarded parse remains confined to the end-of-stream retry. -/
theorem stream_extraction_only_on_balanced_buffers (pj : List Char → Option ParsedJson)
    (req : AnalyzeRequest) (chunks : List (List Char)) (cancelAt : Option Nat)
    (buf : List Char)
    (h : buf ∈ (streamBody pj req chunks cancelAt).streamAttempts) :
    isLikelyJsonComplete buf = true := by
  unfold streamBody at h
  split at h
  · dsimp only at h
    rw [enqueue_attempts] at h
    simp [startedState, enqueue] at h
  · dsimp only at h
    split at h
    · rw [enqueue_attempts, finalize_attempts] at h
      have h' : buf ∈ ((match cancelAt with
          | some k => chunks.take k
          | none => chunks).foldl (processChunk pj) (startedState req)).attempts := h
      rcases foldl_attempts_inv pj _ _ _ h' with h'' | h''
      · simp [startedState, enqueue] at h''
      · exact h''
    · rw [enqueue_attempts, finalize_attempts] at h
      rcases foldl_attempts_inv pj _ _ _ h with h'' | h''
      · simp [startedState, enqueue] at h''
      · exact h''

/-- C3 (witness): the amended guard theorem at a concrete session whose one
chunk is a balanced brace pair. -/
theorem stream_extraction_only_on_balanced_buffers_witness :
    jstr "\x7b\x7d" ∈ (streamBody parseNone
        ⟨some (jstr "+ fix"), some (jstr "8"), some (jstr "fix bug")⟩
        [jstr "\x7b\x7d"] none).streamAttempts
    ∧ isLikelyJsonComplete (jstr "\x7b\x7d") = true :=
  ⟨by decide,
   stream_extraction_only_on_balanced_buffers parseNone
     ⟨some (jstr "+ fix"), some (jstr "8"), some (jstr "fix bug")⟩
     [jstr "\x7b\x7d"] none (jstr "\x7b\x7d") (by decide)⟩

/-- C4: cancellation before the `k`-th chunk leaves exactly the events
emitted while the first `k` chunks streamed — the end-of-stream retry and
the `complete` event deliver nothing once closed — and the buffer holds
exactly the first `k` deltas, so no later delta is processed. -/
theorem cancellation_stops_events_and_deltas (pj : List Char → Option ParsedJson)
    (req : AnalyzeRequest) (chunks : List (List Char)) (k : Nat)
    (h : shouldIncludePR (prOf req) = true) :
    (streamBody pj req chunks (some k)).events
      = ((chunks.take k).foldl (processChunk pj) (startedState req)).events
    ∧ (streamBody pj req chunks (some k)).buffer = (chunks.take k).flatten := by
  unfold streamBody
  split
  · next hcond =>
    exfalso
    rw [h] at hcond
    simp at hcond
  · dsimp only
    split
    · set st₂ := (chunks.take k).foldl (processChunk pj) (startedState req) with hst₂
      set st₃ : LoopState := { st₂ with isClosed := true } with hst₃
      have hcl : st₃.isClosed = true := rfl
      have hcl₄ : (finalize pj st₃).1.isClosed = true := by
        rw [finalize_isClosed]
      constructor
      · rw [enqueue_of_closed _ _ hcl₄, finalize_events_of_closed _ _ hcl]
      · rw [enqueue_of_closed _ _ hcl₄, finalize_currentJson]
        show st₂.currentJson = (chunks.take k).flatten
        rw [hst₂, foldl_currentJson]
        rfl
    · next hcond =>
      simp at hcond

/-- C4 (witness): the cancellation theorem at a concrete relevant session
with two chunks, cancelled after the first. -/
theorem cancellation_stops_events_and_deltas_witness :
    shouldIncludePR (prOf ⟨some (jstr "+ fix"), some (jstr "5"), some (jstr "fix bug")⟩) = true
    ∧ (streamBody parseNone ⟨some (jstr "+ fix"), some (jstr "5"), some (jstr "fix bug")⟩
        [jstr "a", jstr "b"] (some 1)).events
      = (([jstr "a", jstr "b"].take 1).foldl (processChunk parseNone)
          (startedState ⟨some (jstr "+ fix"), some (jstr "5"), some (jstr "fix bug")⟩)).events
    ∧ (streamBody parseNone ⟨some (jstr "+ fix"), some (jstr "5"), some (jstr "fix bug")⟩
        [jstr "a", jstr "b"] (some 1)).buffer = ([jstr "a", jstr "b"].take 1).flatten :=
  ⟨by decide,
   (cancellation_stops_events_and_deltas parseNone
     ⟨some (jstr "+ fix"), some (jstr "5"), some (jstr "fix bug")⟩
     [jstr "a", jstr "b"] 1 (by decide)).1,
   (cancellation_stops_events_and_deltas parseNone
     ⟨some (jstr "+ fix"), some (jstr "5"), some (jstr "fix bug")⟩
     [jstr "a", jstr "b"] 1 (by decide)).2⟩

/-- C5: a session whose record's title is "docs: update readme" is rejected
by the fast-path filter (its lowercased title contains "readme"): whatever
the backend would have produced, the session delivers exactly the `start`
event and a `message` event with the human-readable reason, and the
backend is never invoked. -/
theorem docs_readme_session_rejected_without_backend
    (pj : List Char → Option ParsedJson) (chunks : List (List Char))
    (cancelAt : Option Nat) :
    (streamBody pj ⟨some (jstr "+ x"), some (jstr "42"), some (jstr "docs: update readme")⟩
        chunks cancelAt).events
      = [.start (some (jstr "42")), .message msgNotRelevant]
    ∧ (streamBody pj ⟨some (jstr "+ x"), some (jstr "42"), some (jstr "docs: update readme")⟩
        chunks cancelAt).backendInvoked = false :=
  ⟨rfl, rfl⟩

/-- C6: in every session — any request, any backend output, any parse
oracle, cancelled or not — at most one `notes` event is delivered: the
mid-stream extraction fires only while `notesFound` is unset and sets it,
and the end-of-stream fallback cascade is guarded by the same flag. -/
theorem session_emits_at_most_one_notes_event (pj : List Char → Option ParsedJson)
    (req : AnalyzeRequest) (chunks : List (List Char)) (cancelAt : Option Nat) :
    (streamBody pj req chunks cancelAt).events.countP isNotesEvent ≤ 1 := by
  unfold streamBody
  split
  · dsimp only
    rw [enqueue_countP_nonnotes _ (.message msgNotRelevant) rfl]
    exact (startedState_notesInv req).2
  · dsimp only
    split
    · have hInv : NotesInv ((match cancelAt with
          | some k => chunks.take k
          | none => chunks).foldl (processChunk pj) (startedState req)) :=
        foldl_notesInv pj _ _ (startedState_notesInv req)
      have hInv₃ : NotesInv { (match cancelAt with
          | some k => chunks.take k
          | none => chunks).foldl (processChunk pj) (startedState req) with
            isClosed := true } := hInv
      have hInv₄ := finalize_notesInv pj _ hInv₃
      rw [enqueue_countP_nonnotes _ .complete rfl]
      exact hInv₄.2
    · have hInv : NotesInv ((match cancelAt with
          | some k => chunks.take k
          | none => chunks).foldl (processChunk pj) (startedState req)) :=
        foldl_notesInv pj _ _ (startedState_notesInv req)
      have hInv₄ := finalize_notesInv pj _ hInv
      rw [enqueue_countP_nonnotes _ .complete rfl]
      exact hInv₄.2

/-- C7: `StreamManager.safeEnqueue` called on a closed channel is a no-op
whatever the controller would have done: the state is unchanged, the call
returns `false`, and nothing is delivered — and, being a total function,
it raises nothing. -/
theorem safeEnqueue_after_close_is_noop (st : StreamManagerState)
    (controllerThrows : Bool) (data : List Char) (h : st.isClosed = true) :
    StreamManager.safeEnqueue st controllerThrows data = (st, false, none) := by
  unfold StreamManager.safeEnqueue
  rw [if_pos h]

/-- C7 (witness): the no-op theorem at the closed manager state with a
concrete frame. -/
theorem safeEnqueue_after_close_is_noop_witness :
    (⟨true⟩ : StreamManagerState).isClosed = true
    ∧ StreamManager.safeEnqueue ⟨true⟩ false (jstr "data: x") = (⟨true⟩, false, none) :=
  ⟨rfl, safeEnqueue_after_close_is_noop ⟨true⟩ false (jstr "data: x") rfl⟩

/-- C8: a session whose single delta is "Fixed a crash. Improved load time.
Extra sentence." (no brace anywhere, so no candidate ever parses,
whatever the oracle) ends with the sentence fallback emitting exactly one
`notes` event with developer "Fixed a crash." and marketing "Improved load
time." — the first two period-split fragments longer than ten characters,
re-terminated with periods. -/
theorem sentence_fallback_on_plain_text_buffer (pj : List Char → Option ParsedJson) :
    (streamBody pj ⟨some (jstr "+ fix crash"), some (jstr "7"), some (jstr "fix bug")⟩
        [jstr "Fixed a crash. Improved load time. Extra sentence."] none).events
      = [.start (some (jstr "7")),
         .notes (.str (jstr "Fixed a crash.")) (.str (jstr "Improved load time.")),
         .complete] := rfl

/-- C9: a request whose `diffContent` is absent is answered synchronously
with status 400 and the "Missing diff content" body — the result is the
`badRequest` constructor, which carries no session trace, and the theorem
holds for every backend and oracle, so none is ever consulted. -/
theorem missing_diffContent_returns_400 (pj : List Char → Option ParsedJson)
    (diffId description : Option (List Char)) (chunks : List (List Char))
    (cancelAt : Option Nat) :
    POST pj ⟨none, diffId, description⟩ chunks cancelAt
      = .badRequest 400 msgMissingDiff := rfl

/-- C10 (counterexample): the two truncation implementations disagree at a
12001-character input — the route's marker says "diff truncated" (40
characters), the utilities' says "content truncated" (43), so the outputs
differ already in length. -/
theorem truncate_implementations_differ_on_long_input :
    truncateDiffIfNeeded (List.replicate 12001 'c')
      ≠ truncateForTokenLimit (List.replicate 12001 'c') := by
  intro heq
  have hlen := congrArg List.length heq
  rw [show (truncateDiffIfNeeded (List.replicate 12001 'c')).length = 12040 by
        unfold truncateDiffIfNeeded
        rw [if_neg (by simp only [List.length_replicate]; omega)]
        simp only [List.length_append, List.length_take, List.length_drop,
          List.length_replicate, truncMarkerRoute_length]
        omega] at hlen
  rw [show (truncateForTokenLimit (List.replicate 12001 'c')).length = 12043 by
        unfold truncateForTokenLimit
        rw [if_neg (by simp only [List.length_replicate]; omega)]
        simp only [List.length_append, List.length_take, List.length_drop,
          List.length_replicate, truncMarkerUtils_length]
        omega] at hlen
  omega

/-- C10 (amended): at the default maximum length 12000 the two truncation
implementations agree exactly on inputs of length at most 12000 (both are
the identity there); on longer inputs both keep the first 8400 and last
3600 characters and differ exactly in the inserted marker text. -/
theorem truncate_implementations_structure (s : List Char) :
    (s.length ≤ 12000 → truncateDiffIfNeeded s = s ∧ truncateForTokenLimit s = s)
    ∧ (12000 < s.length →
        truncateDiffIfNeeded s
          = s.take 8400 ++ truncMarkerRoute ++ s.drop (s.length - 3600)
        ∧ truncateForTokenLimit s
          = s.take 8400 ++ truncMarkerUtils ++ s.drop (s.length - 3600)) := by
  constructor
  · intro h
    constructor
    · unfold truncateDiffIfNeeded
      rw [if_pos h]
    · unfold truncateForTokenLimit
      rw [if_pos h]
  · intro h
    constructor
    · unfold truncateDiffIfNeeded
      rw [if_neg (by omega)]
    · unfold truncateForTokenLimit
      rw [if_neg (by omega)]

/-- C10 (witness): the agreement half of the amended theorem at a concrete
short input. -/
theorem truncate_implementations_structure_witness :
    (jstr "+ x").length ≤ 12000
    ∧ truncateDiffIfNeeded (jstr "+ x") = jstr "+ x"
    ∧ truncateForTokenLimit (jstr "+ x") = jstr "+ x" :=
  ⟨by decide, ((truncate_implementations_structure (jstr "+ x")).1 (by decide)).1,
    ((truncate_implementations_structure (jstr "+ x")).1 (by decide)).2⟩
